import Mathlib

/-!
Verification of the online training/collection orchestration of
`d3rlpy/online/iterators.py` and the FQE wrapper of `d3rlpy/ope/fqe.py`,
via a shallow embedding in Lean.

Conventions of the embedding:
* numpy scalars become `ℚ` (machine floats are modelled by exact rationals;
  the constant `1e-8` appearing in the code is the literal `1/100000000`);
* numpy componentwise operations on action vectors become `List.zipWith`
  of the scalar operation;
* the environment, the algorithm, the explorer and the logger are external
  collaborators; they are modelled as deterministic oracles (functions of a
  call counter), and Python exceptions raised by them are modelled by
  `Option`/`Except` results;
* Python locals that may be read while unbound (`unscaled_action` in
  `train_single_env`) are modelled as `Option` cells, reading `none`
  raising a name error;
* ghost fields (`modes`, `steppedActions`, `updates`, `callbacks`, ...)
  record the observable events of a run; they are write-only
  instrumentation and never influence control flow.
-/

namespace OnlineIter

/-- Componentwise `np.clip(a, low, high)` = `min (max a low) high`. -/
def npClip (low high a : ℚ) : ℚ := min (max a low) high

/-- One component of `scale_action` (iterators.py lines 75-85):
clip to `[low, high]`, then `2*((a-low)/(high-low+1e-8)) - 1`. -/
def scale1 (low high a : ℚ) : ℚ :=
  2 * ((npClip low high a - low) / (high - low + 1/100000000)) - 1

/-- One component of `unscale_action` (iterators.py lines 88-97):
`low + 0.5*(s+1)*(high-low+1e-8)`. -/
def unscale1 (low high s : ℚ) : ℚ :=
  low + (1/2 * (s + 1) * (high - low + 1/100000000))

/-- `scale_action` on an action vector: numpy broadcasts the scalar map
over the components of the `Box` action space. -/
def scale_action (space : List (ℚ × ℚ)) (a : List ℚ) : List ℚ :=
  List.zipWith (fun b x => scale1 b.1 b.2 x) space a

/-- `unscale_action` on an action vector. -/
def unscale_action (space : List (ℚ × ℚ)) (s : List ℚ) : List ℚ :=
  List.zipWith (fun b x => unscale1 b.1 b.2 x) space s

/-- One stored transition (the keyword arguments of `buffer.append`). -/
structure Transition where
  observation : ℚ
  action : ℚ
  reward : ℚ
  terminal : Bool
  clip_episode : Bool
deriving Repr, DecidableEq, Inhabited

/-- A `TransitionMiniBatch`; the orchestrator treats it opaquely, so it is
modelled as the list of transitions it was built from. -/
structure MiniBatch where
  transitions : List Transition
deriving Repr, DecidableEq

/-- Modelled from the spec (§4.4): `Buffer.sample_trainsitions` — the buffer
implementation is not part of the covered source; the spec allows
implementation-defined sampling of `batch_size` stored transitions, so the
model picks them cyclically from the start of the buffer. The (sic) name
is the one the source calls. -/
def sample_trainsitions (buf : List Transition) (batch_size : Nat) : List Transition :=
  (List.range batch_size).map (fun i => buf.getD (i % buf.length) default)

/-- Modelled from the spec (§4.4): `Buffer.to_minibatch` packs raw
transitions into a `MiniBatch`. -/
def to_minibatch (ts : List Transition) : MiniBatch := ⟨ts⟩

/-- Modelled from the spec (§4.4): `Buffer.sample` = sample transitions,
then pack them into a `MiniBatch`. -/
def buffer_sample (buf : List Transition) (batch_size : Nat) : MiniBatch :=
  to_minibatch (sample_trainsitions buf batch_size)

/-- The observation fed to the policy: the raw observation (cast to fixed
precision, modelled as the identity) for flat observations, or the stacked
frame window for image observations. -/
inductive FedObs
  | plain (o : ℚ)
  | stacked (frames : List ℚ)
deriving Repr, DecidableEq

/-- Modelled from the spec (§4.2): `StackedObservation.append` pushes a
frame and evicts the oldest frames beyond `n_frames`
(`preprocessing/stack.py` is not part of the covered source). -/
def stackAppend (n_frames : Nat) (st : List ℚ) (o : ℚ) : List ℚ :=
  let st' := st ++ [o]
  if n_frames < st'.length then st'.drop (st'.length - n_frames) else st'

/-- Deterministic oracle model of a gym environment.  `reset`, `sample` and
`step` are indexed by call counters; a `none` from `step` models a Python
exception raised by the environment. `step` returns
`(next_observation, reward, terminal, info-has-TimeLimit.truncated)`. -/
structure EnvModel where
  low : ℚ
  high : ℚ
  is_image : Bool
  reset : Nat → ℚ
  sample : Nat → ℚ
  step : Nat → ℚ → Option (ℚ × ℚ × Bool × Bool)

/-- Oracle model of the `AlgoProtocol` capability set used by the loop.
`update` is indexed by its call counter and may fail (`none` models a
Python exception); on success it returns the loss-metric dictionary. -/
structure AlgoModel where
  predict : FedObs → ℚ
  sample_action : FedObs → ℚ
  update : Nat → MiniBatch → Option MiniBatch → Option (List (String × ℚ))
  batch_size : Nat
  n_frames : Nat
  nsteps : Nat
  gamma : ℚ

/-- An explorer, when configured: `Explorer.sample` on the (reshaped) fed
observation and the current step index. -/
def ExplorerModel : Type := FedObs → Nat → ℚ

/-- Which branch of the action-selection `if` chain ran (ghost data). -/
inductive SelMode
  | random
  | explore
  | exploit
deriving Repr, DecidableEq

/-- One recorded `algo.update` invocation (ghost data). -/
structure UpdateEvent where
  step : Nat
  batch : MiniBatch
  demo_batch : Option MiniBatch
deriving Repr, DecidableEq

/-- One demonstration step: the aligned `obs`/`act`/`rew`/`done` entries of
a demonstration episode record. -/
structure DemoStep where
  obs : ℚ
  act : ℚ
  rew : ℚ
  done : Bool
deriving Repr, DecidableEq

/-- The configuration surface of `train_single_env` that affects control
flow. `eval_score` is the oracle for the evaluation scorer, `load_demo`
the parsed demonstration file (if given). -/
structure TrainCfg where
  n_steps : Nat
  n_steps_per_epoch : Nat
  update_interval : Nat
  update_start_step : Nat
  random_steps : Nat
  save_interval : Nat
  timelimit_aware : Bool
  bc_loss : Bool
  has_eval : Bool
  eval_score : Nat → ℚ
  load_demo : Option (List (List DemoStep))

/-- The mutable locals of the training loop plus ghost event logs.
`unscaled_action` is the Python local of the same name: `none` means the
variable is still unbound.  `demo_buffer` is `none` until the demo-buffer
local is created. -/
structure TrainState where
  observation : ℚ
  unscaled_action : Option ℚ
  rollout_return : ℚ
  buffer : List Transition
  demo_buffer : Option (List Transition)
  stacker : List ℚ
  metrics : List (String × ℚ)
  resetCount : Nat
  stepCalls : Nat
  sampleCalls : Nat
  updateCalls : Nat
  updates : List UpdateEvent
  modes : List SelMode
  steppedActions : List ℚ
  callbacks : List (Nat × Nat)
  commits : List (Nat × Nat)
  saves : List Nat
deriving Repr, DecidableEq

/-- Kinds of Python exceptions the loop model can raise.
`nameError`: `env.step(unscaled_action)` with `unscaled_action` unbound;
`demoNameError`: `demo_buffer` read while unbound in the update block;
`envStepError`: exception raised by `env.step`;
`updateError`: exception raised by `algo.update`. -/
inductive ErrKind
  | nameError
  | demoNameError
  | envStepError
  | updateError
deriving Repr, DecidableEq

/-- A propagated exception together with the state at the raise point. -/
structure RunError where
  kind : ErrKind
  state : TrainState
deriving Repr, DecidableEq

/-- The state carried by either outcome of a loop fragment. -/
def stateOf : Except RunError TrainState → TrainState
  | Except.ok s => s
  | Except.error e => e.state

/-- `train_single_env` lines 283-288: push the frame onto the stacker and
feed the stacked window for image observations, else feed the raw
observation (the `astype("f4")` cast is the identity in the rational
model). -/
def fedObs (env : EnvModel) (nf : Nat) (s : TrainState) : TrainState × FedObs :=
  if env.is_image then
    ({ s with stacker := stackAppend nf s.stacker s.observation },
      FedObs.stacked (stackAppend nf s.stacker s.observation))
  else
    (s, FedObs.plain s.observation)

/-- The branch of the selection `if` chain taken at a step
(lines 293, 300, 303). -/
def selMode (cfg : TrainCfg) (explorer : Option ExplorerModel) (t : Nat) : SelMode :=
  if t < cfg.random_steps then SelMode.random
  else
    match explorer with
    | some _ => SelMode.explore
    | none => SelMode.exploit

/-- `train_single_env` lines 293-311: action selection.  Returns the
normalized `action`, the new value of the `unscaled_action` local (note:
the Explore branch does not assign it, so the stale value is kept), and
the new `env.action_space.sample` call counter. -/
def selectAction (cfg : TrainCfg) (env : EnvModel) (algo : AlgoModel)
    (explorer : Option ExplorerModel) (t : Nat) (fed : FedObs) (s : TrainState) :
    ℚ × Option ℚ × Nat :=
  if t < cfg.random_steps then
    let ua := env.sample s.sampleCalls
    (scale1 env.low env.high ua, some ua, s.sampleCalls + 1)
  else
    match explorer with
    | some ex => (ex fed t, s.unscaled_action, s.sampleCalls)
    | none =>
      let a := algo.sample_action fed
      (a, some (unscale1 env.low env.high a), s.sampleCalls)

/-- `train_single_env` lines 318-322: the `(terminal, clip_episode)` pair
stored for this step. -/
def trainClip (timelimit_aware term trunc : Bool) : Bool × Bool :=
  if timelimit_aware && trunc then (false, true) else (term, term)

/-- `train_single_env` lines 324-330: the transition passed to
`buffer.append` this step. -/
def trainAppendedTr (timelimit_aware : Bool) (obs action r : ℚ)
    (term trunc : Bool) : Transition :=
  ⟨obs, action, r, (trainClip timelimit_aware term trunc).1,
    (trainClip timelimit_aware term trunc).2⟩

/-- `train_single_env` lines 316-341: rollout accounting, clip
determination, buffer append, and episode reset / observation advance. -/
def episodeBlock (cfg : TrainCfg) (env : EnvModel) (action no r : ℚ)
    (term trunc : Bool) (s : TrainState) : TrainState :=
  let rr := s.rollout_return + r
  let tr := trainAppendedTr cfg.timelimit_aware s.observation action r term trunc
  let s1 : TrainState := { s with buffer := s.buffer ++ [tr], rollout_return := rr }
  if tr.clip_episode then
    { s1 with
      observation := env.reset s1.resetCount,
      resetCount := s1.resetCount + 1,
      metrics := s1.metrics ++ [("rollout_return", rr)],
      rollout_return := 0,
      stacker := if env.is_image then [] else s1.stacker }
  else
    { s1 with observation := no }

/-- `train_single_env` lines 345-389: the update trigger — sample a
minibatch (blended with a demonstration minibatch under `bc_loss`), call
`algo.update`, record the loss metrics. -/
def updateBlock (cfg : TrainCfg) (algo : AlgoModel) (t : Nat) (s : TrainState) :
    Except RunError TrainState :=
  if t > cfg.update_start_step ∧ s.buffer.length > algo.batch_size then
    if t % cfg.update_interval = 0 then
      let sampled : Except RunError (MiniBatch × Option MiniBatch) :=
        if cfg.bc_loss then
          match s.demo_buffer with
          | none => Except.error ⟨ErrKind.demoNameError, s⟩
          | some db =>
            let buffer_t := sample_trainsitions s.buffer algo.batch_size
            let demo_t := sample_trainsitions db 128
            Except.ok (to_minibatch (buffer_t ++ demo_t), some (to_minibatch demo_t))
        else
          Except.ok (buffer_sample s.buffer algo.batch_size, none)
      match sampled with
      | Except.error e => Except.error e
      | Except.ok (batch, demo_batch) =>
        match algo.update s.updateCalls batch demo_batch with
        | none => Except.error ⟨ErrKind.updateError, s⟩
        | some loss =>
          Except.ok { s with
            metrics := s.metrics ++ loss,
            updates := s.updates ++ [⟨t, batch, demo_batch⟩],
            updateCalls := s.updateCalls + 1 }
    else Except.ok s
  else Except.ok s

/-- `train_single_env` lines 391-404: the per-step callback and the
epoch-boundary evaluation / checkpoint / commit block. -/
def epochBlock (cfg : TrainCfg) (t : Nat) (s : TrainState) : TrainState :=
  let epoch := t / cfg.n_steps_per_epoch
  let s4 : TrainState := { s with callbacks := s.callbacks ++ [(epoch, t)] }
  if epoch > 0 ∧ t % cfg.n_steps_per_epoch = 0 then
    let sA : TrainState :=
      if cfg.has_eval then
        { s4 with metrics := s4.metrics ++ [("evaluation", cfg.eval_score epoch)] }
      else s4
    let sB : TrainState :=
      if epoch % cfg.save_interval = 0 then { sA with saves := sA.saves ++ [t] } else sA
    { sB with commits := sB.commits ++ [(epoch, t)] }
  else
    s4

/-- `train_single_env` lines 316-404, everything after `env.step` returned
`(no, r, term, trunc)`: the episode block, then the update trigger, then
the callback and epoch-boundary block. -/
def trainAfterStep (cfg : TrainCfg) (env : EnvModel) (algo : AlgoModel)
    (t : Nat) (action no r : ℚ) (term trunc : Bool) (s : TrainState) :
    Except RunError TrainState :=
  match updateBlock cfg algo t (episodeBlock cfg env action no r term trunc s) with
  | Except.error e => Except.error e
  | Except.ok s3 => Except.ok (epochBlock cfg t s3)

/-- One iteration of the `train_single_env` step loop (lines 280-404) at
step index `t`. -/
def runStep (cfg : TrainCfg) (env : EnvModel) (algo : AlgoModel)
    (explorer : Option ExplorerModel) (t : Nat) (s : TrainState) :
    Except RunError TrainState :=
  let sf := (fedObs env algo.n_frames s).1
  let fed := (fedObs env algo.n_frames s).2
  let sel := selectAction cfg env algo explorer t fed sf
  let s1 : TrainState :=
    { sf with
      sampleCalls := sel.2.2,
      unscaled_action := sel.2.1,
      modes := sf.modes ++ [selMode cfg explorer t] }
  match sel.2.1 with
  | none => Except.error ⟨ErrKind.nameError, s1⟩
  | some ua =>
    let s2 : TrainState :=
      { s1 with stepCalls := s1.stepCalls + 1, steppedActions := s1.steppedActions ++ [ua] }
    match env.step s1.stepCalls ua with
    | none => Except.error ⟨ErrKind.envStepError, s2⟩
    | some (no, r, term, trunc) =>
      trainAfterStep cfg env algo t sel.1 no r term trunc s2

/-- The step loop over the remaining step indices. -/
def runLoop (cfg : TrainCfg) (env : EnvModel) (algo : AlgoModel)
    (explorer : Option ExplorerModel) : List Nat → TrainState → Except RunError TrainState
  | [], s => Except.ok s
  | t :: ts, s =>
    match runStep cfg env algo explorer t s with
    | Except.error e => Except.error e
    | Except.ok s' => runLoop cfg env algo explorer ts s'

/-- `train_single_env` lines 230-236 / 241-247: the transition built from
one recorded demonstration step (action rescaled into normalized range,
`terminal` and `clip_episode` both from the recorded `done`). -/
def mkDemoTransition (env : EnvModel) (d : DemoStep) : Transition :=
  ⟨d.obs, scale1 env.low env.high d.act, d.rew, d.done, d.done⟩

/-- `train_single_env` lines 220-247: demonstration loading.  With
`bc_loss` the transitions populate a freshly created demonstration buffer;
otherwise they are appended to the primary buffer. -/
def setupDemo (cfg : TrainCfg) (env : EnvModel) (s : TrainState) : TrainState :=
  match cfg.load_demo with
  | none => s
  | some demos =>
    if cfg.bc_loss then
      { s with demo_buffer := some ((demos.map (fun ep => ep.map (mkDemoTransition env))).flatten) }
    else
      { s with buffer := s.buffer ++ (demos.map (fun ep => ep.map (mkDemoTransition env))).flatten }

/-- The loop locals right after `observation = env.reset()` (line 278),
starting from the caller-supplied buffer contents. -/
def initState (env : EnvModel) (buffer0 : List Transition) : TrainState :=
  { observation := env.reset 0
    unscaled_action := none
    rollout_return := 0
    buffer := buffer0
    demo_buffer := none
    stacker := []
    metrics := []
    resetCount := 1
    stepCalls := 0
    sampleCalls := 0
    updateCalls := 0
    updates := []
    modes := []
    steppedActions := []
    callbacks := []
    commits := []
    saves := [] }

/-- The outcome of a completed run: the final loop state plus whether the
trailing `buffer.clip_episode()` (line 407) and `logger.close()`
(line 410) executed. -/
structure FinalState where
  state : TrainState
  finalClipCalled : Bool
  loggerClosed : Bool
deriving Repr, DecidableEq

/-- `train_single_env` (lines 184-410): demo setup, the step loop over
`1..n_steps`, then — only when the loop returns normally — the trailing
`buffer.clip_episode()` and `logger.close()`; a propagated exception
skips both (there is no `try/finally` in the source). -/
def train_single_env (cfg : TrainCfg) (env : EnvModel) (algo : AlgoModel)
    (explorer : Option ExplorerModel) (buffer0 : List Transition) :
    Except RunError FinalState :=
  let s0 := setupDemo cfg env (initState env buffer0)
  match runLoop cfg env algo explorer (List.range' 1 cfg.n_steps) s0 with
  | Except.error e => Except.error e
  | Except.ok s => Except.ok ⟨s, true, true⟩

/-- Did the trailing cleanup (clip + logger close) run? -/
def cleanupRan : Except RunError FinalState → Bool
  | Except.ok fs => fs.finalClipCalled && fs.loggerClosed
  | Except.error _ => false

/-- The exception kind of a failed run, if any. -/
def errKind : Except RunError FinalState → Option ErrKind
  | Except.ok _ => none
  | Except.error e => some e.kind

/-- The actions passed to `env.step` over a whole run (ghost log). -/
def steppedOf : Except RunError FinalState → List ℚ
  | Except.ok fs => fs.state.steppedActions
  | Except.error e => e.state.steppedActions

/-- The selection modes taken over a whole run (ghost log). -/
def modesOf : Except RunError FinalState → List SelMode
  | Except.ok fs => fs.state.modes
  | Except.error e => e.state.modes

/-- The mutable locals of the `collect` loop plus ghost event logs. -/
structure CollectState where
  observation : ℚ
  buffer : List Transition
  stacker : List ℚ
  resetCount : Nat
  stepCalls : Nat
  steppedActions : List ℚ
deriving Repr, DecidableEq

/-- An exception propagating out of `collect` (raised by `env.step`),
with the locals at the raise point. -/
structure CollectError where
  state : CollectState
deriving Repr, DecidableEq

/-- The state carried by either outcome of a `collect` fragment. -/
def cStateOf : Except CollectError CollectState → CollectState
  | Except.ok s => s
  | Except.error e => e.state

/-- `collect` lines 455-460: fed observation (same stacking logic as the
training loop, written out from the `collect` source). -/
def collectFedObs (env : EnvModel) (nf : Nat) (s : CollectState) :
    CollectState × FedObs :=
  if env.is_image then
    ({ s with stacker := stackAppend nf s.stacker s.observation },
      FedObs.stacked (stackAppend nf s.stacker s.observation))
  else
    (s, FedObs.plain s.observation)

/-- `collect` lines 463-470: action selection.  `deterministic` forces
`predict`; otherwise an explorer, if configured, is delegated to, else
`sample_action`.  The selected action is returned as-is. -/
def collectSelect (algo : AlgoModel) (explorer : Option ExplorerModel)
    (deterministic : Bool) (fed : FedObs) (t : Nat) : ℚ :=
  if deterministic then algo.predict fed
  else
    match explorer with
    | some ex => ex fed t
    | none => algo.sample_action fed

/-- `collect` lines 476-480: the `(terminal, clip_episode)` pair stored
for this step. -/
def collectClip (timelimit_aware term trunc : Bool) : Bool × Bool :=
  if timelimit_aware && trunc then (false, true) else (term, term)

/-- `collect` lines 483-489: the transition passed to `buffer.append`. -/
def collectAppendedTr (timelimit_aware : Bool) (obs action r : ℚ)
    (term trunc : Bool) : Transition :=
  ⟨obs, action, r, (collectClip timelimit_aware term trunc).1,
    (collectClip timelimit_aware term trunc).2⟩

/-- `collect` lines 476-498: everything after `env.step` returned
`(no, r, term, trunc)`: clip determination, buffer append, and episode
reset / observation advance. -/
def collectAfterStep (env : EnvModel) (timelimit_aware : Bool)
    (action no r : ℚ) (term trunc : Bool) (s : CollectState) : CollectState :=
  let tr := collectAppendedTr timelimit_aware s.observation action r term trunc
  let s1 : CollectState := { s with buffer := s.buffer ++ [tr] }
  if tr.clip_episode then
    { s1 with
      observation := env.reset s1.resetCount,
      resetCount := s1.resetCount + 1,
      stacker := if env.is_image then [] else s1.stacker }
  else
    { s1 with observation := no }

/-- One iteration of the `collect` loop (lines 453-498) at step index `t`.
The selected action itself is passed to `env.step` (no rescaling). -/
def collectStep (env : EnvModel) (algo : AlgoModel)
    (explorer : Option ExplorerModel) (deterministic timelimit_aware : Bool)
    (t : Nat) (s : CollectState) : Except CollectError CollectState :=
  let sf := (collectFedObs env algo.n_frames s).1
  let fed := (collectFedObs env algo.n_frames s).2
  let action := collectSelect algo explorer deterministic fed t
  let s1 : CollectState :=
    { sf with stepCalls := sf.stepCalls + 1, steppedActions := sf.steppedActions ++ [action] }
  match env.step sf.stepCalls action with
  | none => Except.error ⟨s1⟩
  | some (no, r, term, trunc) =>
    Except.ok (collectAfterStep env timelimit_aware action no r term trunc s1)

/-- The `collect` loop over the remaining step indices. -/
def collectLoop (env : EnvModel) (algo : AlgoModel)
    (explorer : Option ExplorerModel) (deterministic timelimit_aware : Bool) :
    List Nat → CollectState → Except CollectError CollectState
  | [], s => Except.ok s
  | t :: ts, s =>
    match collectStep env algo explorer deterministic timelimit_aware t s with
    | Except.error e => Except.error e
    | Except.ok s' => collectLoop env algo explorer deterministic timelimit_aware ts s'

/-- The outcome of a completed `collect` run: the final state plus whether
the trailing `buffer.clip_episode()` (line 501) executed. -/
structure CollectFinal where
  state : CollectState
  finalClipCalled : Bool
deriving Repr, DecidableEq

/-- `collect` (lines 413-501): the step loop over `1..n_steps`, then the
trailing `buffer.clip_episode()` on normal completion. -/
def collect (env : EnvModel) (algo : AlgoModel)
    (explorer : Option ExplorerModel) (deterministic timelimit_aware : Bool)
    (n_steps : Nat) (buffer0 : List Transition) : Except CollectError CollectFinal :=
  let s0 : CollectState :=
    { observation := env.reset 0, buffer := buffer0, stacker := [],
      resetCount := 1, stepCalls := 0, steppedActions := [] }
  match collectLoop env algo explorer deterministic timelimit_aware
      (List.range' 1 n_steps) s0 with
  | Except.error e => Except.error e
  | Except.ok s => Except.ok ⟨s, true⟩

/-- The actions passed to `env.step` over a whole `collect` run. -/
def cSteppedOf : Except CollectError CollectFinal → List ℚ
  | Except.ok fs => fs.state.steppedActions
  | Except.error e => e.state.steppedActions

/-- A concrete well-behaved environment: `Box(0, 2)` flat observations,
`sample` always drawing `7`, `step` echoing the received action as the
reward. -/
def envOk : EnvModel :=
  { low := 0, high := 2, is_image := false,
    reset := fun _ => 5, sample := fun _ => 7,
    step := fun _ a => some (6, a, false, false) }

/-- A concrete environment whose `step` always raises. -/
def envBad : EnvModel :=
  { envOk with step := fun _ _ => none }

/-- A concrete algorithm whose batch size is never reached. -/
def algoBig : AlgoModel :=
  { predict := fun _ => 3, sample_action := fun _ => 1,
    update := fun _ _ _ => some [("critic_loss", 1)],
    batch_size := 1000, n_frames := 4, nsteps := 1, gamma := 99/100 }

/-- A concrete algorithm whose batch size is always exceeded. -/
def algoSmall : AlgoModel := { algoBig with batch_size := 0 }

/-- A one-step baseline configuration. -/
def cfg0 : TrainCfg :=
  { n_steps := 1, n_steps_per_epoch := 10, update_interval := 1,
    update_start_step := 0, random_steps := 0, save_interval := 1,
    timelimit_aware := true, bc_loss := false, has_eval := false,
    eval_score := fun _ => 0, load_demo := none }

/-- Two steps, the first in the random phase. -/
def cfgStale : TrainCfg := { cfg0 with n_steps := 2, random_steps := 2 }

/-- One step with a three-step random phase. -/
def cfgRand3 : TrainCfg := { cfg0 with random_steps := 3 }

/-- A constant explorer. -/
def explorer99 : ExplorerModel := fun _ _ => 99

/-- Another constant explorer. -/
def explorer55 : ExplorerModel := fun _ _ => 55

/-- The loop state at entry of the concrete runs. -/
def stFix : TrainState := initState envOk []

/-- The state after one concrete step with an always-firing update. -/
def s1Fix : TrainState := stateOf (runStep cfg0 envOk algoSmall none 1 stFix)

/-- The final state of a concrete normally-terminating run. -/
def runOkFinal : FinalState :=
  match train_single_env cfg0 envOk algoBig none [] with
  | Except.ok fs => fs
  | Except.error e => ⟨e.state, false, false⟩

/-- A two-episode, three-steps-each demonstration file. -/
def demoEps : List (List DemoStep) :=
  [[⟨1, 1, 1, false⟩, ⟨2, 1, 1, false⟩, ⟨3, 1, 1, true⟩],
   [⟨4, 1, 1, false⟩, ⟨5, 1, 1, false⟩, ⟨6, 1, 1, true⟩]]

/-- The baseline configuration with behavior cloning and the demo file. -/
def cfgBC : TrainCfg := { cfg0 with bc_loss := true, load_demo := some demoEps }

/-- The loop state after demo loading under behavior cloning. -/
def stBC : TrainState := setupDemo cfgBC envOk (initState envOk [])

/-- The demonstration buffer contents after loading `demoEps`. -/
def dbBC : List Transition :=
  (demoEps.map (fun ep => ep.map (mkDemoTransition envOk))).flatten

/-- The state after one post-env-step block under behavior cloning. -/
def s6Fix : TrainState :=
  stateOf (trainAfterStep cfgBC envOk algoSmall 1 1 6 1 false false stBC)

/-- The transition appended by a concrete truncated step. -/
def tr5Fix : Transition := trainAppendedTr cfg0.timelimit_aware stFix.observation 1 1 false true

/-- The state after a concrete truncated step's post-env-step block. -/
def s5Fix : TrainState :=
  stateOf (trainAfterStep cfg0 envOk algoBig 1 1 6 1 false true stFix)

/-- The `collect` loop state at entry of the concrete runs. -/
def cInit : CollectState :=
  { observation := envOk.reset 0, buffer := [], stacker := [],
    resetCount := 1, stepCalls := 0, steppedActions := [] }

end OnlineIter

namespace FQE

/-- Observation batches and action batches of the FQE wrapper. -/
def Obs : Type := List ℚ

/-- Oracle model of the wrapped `QLearningAlgoBase` collaborator. -/
structure WrappedAlgo where
  predict : Obs → List ℚ
  sample_action : Obs → List ℚ
  save_policy : String → Unit

/-- The numpy view of a `TorchMiniBatch` (`batch.numpy_batch`); `none`
models the assertion-failing absent view. -/
structure NumpyBatch where
  next_observations : Obs

/-- A `TorchMiniBatch` as consumed by `inner_update`. -/
structure TorchMiniBatch where
  numpy_batch : Option NumpyBatch

/-- Oracle model of the `FQEBaseImpl` collaborator: `update` returns the
scalar loss, `update_target` is an effect we record as a ghost flag. -/
structure ImplModel where
  update : TorchMiniBatch → List ℚ → ℚ

/-- The `_FQEBase` instance state: the wrapped algorithm (possibly absent),
the implementation (possibly not yet built), the gradient-step counter and
the `target_update_interval` configuration. -/
structure FQEBase where
  _algo : Option WrappedAlgo
  _impl : Option ImplModel
  _grad_step : Nat
  target_update_interval : Nat

/-- The Python assertion errors raised by `_FQEBase` preconditions:
`algoNotGiven` carries `ALGO_NOT_GIVEN_ERROR`, `implNotInitialized`
carries `IMPL_NOT_INITIALIZED_ERROR`, `numpyBatchMissing` the bare
`assert batch.numpy_batch`. -/
inductive FQEError
  | algoNotGiven
  | implNotInitialized
  | numpyBatchMissing
deriving Repr, DecidableEq

/-- `_FQEBase.predict` (fqe.py lines 104-106): assert the algorithm is
given, then delegate. -/
def predict (f : FQEBase) (x : Obs) : Except FQEError (List ℚ) :=
  match f._algo with
  | none => Except.error FQEError.algoNotGiven
  | some a => Except.ok (a.predict x)

/-- `_FQEBase.sample_action` (fqe.py lines 108-110). -/
def sample_action (f : FQEBase) (x : Obs) : Except FQEError (List ℚ) :=
  match f._algo with
  | none => Except.error FQEError.algoNotGiven
  | some a => Except.ok (a.sample_action x)

/-- `_FQEBase.save_policy` (fqe.py lines 100-102). -/
def save_policy (f : FQEBase) (fname : String) : Except FQEError Unit :=
  match f._algo with
  | none => Except.error FQEError.algoNotGiven
  | some a => Except.ok (a.save_policy fname)

/-- `_FQEBase.inner_update` (fqe.py lines 112-122): assert the algorithm,
then the impl, then the numpy view; compute the next actions with the
wrapped algorithm's `predict`, update the impl, and update the target
network on the configured interval.  Returns the loss dictionary and
whether the target network was updated. -/
def inner_update (f : FQEBase) (batch : TorchMiniBatch) :
    Except FQEError (List (String × ℚ) × Bool) :=
  match f._algo with
  | none => Except.error FQEError.algoNotGiven
  | some a =>
    match f._impl with
    | none => Except.error FQEError.implNotInitialized
    | some impl =>
      match batch.numpy_batch with
      | none => Except.error FQEError.numpyBatchMissing
      | some nb =>
        let next_actions := a.predict nb.next_observations
        let loss := impl.update batch next_actions
        let targetUpdated := decide (f._grad_step % f.target_update_interval = 0)
        Except.ok ([("loss", loss)], targetUpdated)

/-- A concrete wrapped algorithm. -/
def wAlgo : WrappedAlgo :=
  { predict := fun _ => [42], sample_action := fun _ => [7],
    save_policy := fun _ => () }

/-- A concrete built implementation. -/
def implFix : ImplModel := { update := fun _ _ => 1 }

/-- An FQE instance whose wrapped algorithm is absent (impl present). -/
def fqeNone : FQEBase :=
  { _algo := none, _impl := some implFix, _grad_step := 0, target_update_interval := 100 }

/-- An FQE instance with the wrapped algorithm present. -/
def fqeSome : FQEBase :=
  { _algo := some wAlgo, _impl := some implFix, _grad_step := 0, target_update_interval := 100 }

/-- A concrete minibatch with its numpy view present. -/
def batchFix : TorchMiniBatch := { numpy_batch := some { next_observations := [0] } }

end FQE

namespace OnlineIter

lemma npClip_of_mem (low high a : ℚ) (h1 : low ≤ a) (h2 : a ≤ high) :
    npClip low high a = a := by
  unfold npClip
  rw [max_eq_left h1, min_eq_left h2]

lemma unscale1_scale1 (low high a : ℚ) (h1 : low ≤ a) (h2 : a ≤ high) :
    unscale1 low high (scale1 low high a) = a := by
  have hlh : low ≤ high := le_trans h1 h2
  have hd : (0:ℚ) < high - low + 1/100000000 := by linarith
  have hd' : high - low + 1/100000000 ≠ 0 := ne_of_gt hd
  unfold unscale1 scale1
  rw [npClip_of_mem low high a h1 h2]
  have hstep : (1:ℚ)/2 * (2 * ((a - low) / (high - low + 1/100000000)) - 1 + 1) *
      (high - low + 1/100000000) =
      (a - low) / (high - low + 1/100000000) * (high - low + 1/100000000) := by
    ring
  rw [hstep, div_mul_cancel₀ _ hd']
  ring

lemma sample_trainsitions_length (buf : List Transition) (n : Nat) :
    (sample_trainsitions buf n).length = n := by
  simp [sample_trainsitions]

lemma sample_trainsitions_mem (buf : List Transition) (n : Nat) (hne : buf ≠ [])
    (x : Transition) (hx : x ∈ sample_trainsitions buf n) : x ∈ buf := by
  simp only [sample_trainsitions, List.mem_map, List.mem_range] at hx
  obtain ⟨i, _, rfl⟩ := hx
  have hlen : 0 < buf.length := List.length_pos.mpr hne
  have hidx : i % buf.length < buf.length := Nat.mod_lt i hlen
  rw [List.getD_eq_getElem buf default hidx]
  exact List.getElem_mem hidx

lemma episodeBlock_eq (cfg : TrainCfg) (env : EnvModel) (action no r : ℚ)
    (term trunc : Bool) (s : TrainState) :
    episodeBlock cfg env action no r term trunc s =
      { s with
        buffer := s.buffer ++
          [trainAppendedTr cfg.timelimit_aware s.observation action r term trunc],
        observation :=
          if (trainAppendedTr cfg.timelimit_aware s.observation action r term trunc).clip_episode
          then env.reset s.resetCount else no,
        resetCount :=
          if (trainAppendedTr cfg.timelimit_aware s.observation action r term trunc).clip_episode
          then s.resetCount + 1 else s.resetCount,
        rollout_return :=
          if (trainAppendedTr cfg.timelimit_aware s.observation action r term trunc).clip_episode
          then 0 else s.rollout_return + r,
        stacker :=
          if (trainAppendedTr cfg.timelimit_aware s.observation action r term trunc).clip_episode
            && env.is_image then [] else s.stacker,
        metrics := s.metrics ++
          (if (trainAppendedTr cfg.timelimit_aware s.observation action r term trunc).clip_episode
           then [("rollout_return", s.rollout_return + r)] else []) } := by
  unfold episodeBlock
  cases h : (trainAppendedTr cfg.timelimit_aware s.observation action r term trunc).clip_episode <;>
    cases hI : env.is_image <;> simp [h, hI]

/-- The update-trigger predicate of lines 345-346, evaluated on the buffer
length at the check point (after this step's append). -/
def updatePred (cfg : TrainCfg) (algo : AlgoModel) (t : Nat) (buflen : Nat) : Prop :=
  t > cfg.update_start_step ∧ buflen > algo.batch_size ∧ t % cfg.update_interval = 0

instance (cfg : TrainCfg) (algo : AlgoModel) (t buflen : Nat) :
    Decidable (updatePred cfg algo t buflen) := by
  unfold updatePred
  infer_instance

lemma updateBlock_proj (cfg : TrainCfg) (algo : AlgoModel) (t : Nat) (s : TrainState) :
    (stateOf (updateBlock cfg algo t s)).buffer = s.buffer ∧
    (stateOf (updateBlock cfg algo t s)).observation = s.observation ∧
    (stateOf (updateBlock cfg algo t s)).resetCount = s.resetCount ∧
    (stateOf (updateBlock cfg algo t s)).rollout_return = s.rollout_return ∧
    (stateOf (updateBlock cfg algo t s)).stacker = s.stacker ∧
    (stateOf (updateBlock cfg algo t s)).demo_buffer = s.demo_buffer ∧
    (stateOf (updateBlock cfg algo t s)).modes = s.modes ∧
    (stateOf (updateBlock cfg algo t s)).steppedActions = s.steppedActions ∧
    (stateOf (updateBlock cfg algo t s)).unscaled_action = s.unscaled_action ∧
    ∃ ms, (stateOf (updateBlock cfg algo t s)).metrics = s.metrics ++ ms := by
  unfold updateBlock
  by_cases h1 : t > cfg.update_start_step ∧ s.buffer.length > algo.batch_size
  · by_cases h2 : t % cfg.update_interval = 0
    · simp only [h1, h2, if_true, if_pos]
      cases hbc : cfg.bc_loss
      · cases hupd : algo.update s.updateCalls (buffer_sample s.buffer algo.batch_size) none
        · simp [hupd, stateOf]
        · simp [hupd, stateOf]
      · cases hdb : s.demo_buffer with
        | none => simp [hdb, stateOf]
        | some db =>
          cases hupd : algo.update s.updateCalls
              (to_minibatch (sample_trainsitions s.buffer algo.batch_size ++
                sample_trainsitions db 128))
              (some (to_minibatch (sample_trainsitions db 128)))
          · simp [hdb, hupd, stateOf]
          · simp [hdb, hupd, stateOf]
    · simp [h1, h2, stateOf]
  · simp [h1, stateOf]

lemma updateBlock_ok_updates (cfg : TrainCfg) (algo : AlgoModel) (t : Nat)
    (s s' : TrainState) (h : updateBlock cfg algo t s = Except.ok s') :
    (s'.updates.length = s.updates.length + 1 ↔ updatePred cfg algo t s.buffer.length) ∧
    (¬updatePred cfg algo t s.buffer.length → s'.updates = s.updates) := by
  unfold updateBlock at h
  by_cases h1 : t > cfg.update_start_step ∧ s.buffer.length > algo.batch_size
  · by_cases h2 : t % cfg.update_interval = 0
    · have hp : updatePred cfg algo t s.buffer.length := ⟨h1.1, h1.2, h2⟩
      rw [if_pos h1, if_pos h2] at h
      cases hbc : cfg.bc_loss <;> rw [hbc] at h
      · cases hupd : algo.update s.updateCalls (buffer_sample s.buffer algo.batch_size) none <;>
          simp [hupd] at h
        subst h
        simp [hp]
      · cases hdb : s.demo_buffer with
        | none => simp [hdb] at h
        | some db =>
          cases hupd : algo.update s.updateCalls
              (to_minibatch (sample_trainsitions s.buffer algo.batch_size ++
                sample_trainsitions db 128))
              (some (to_minibatch (sample_trainsitions db 128))) <;>
            simp [hdb, hupd] at h
          subst h
          simp [hp]
    · have hnp : ¬updatePred cfg algo t s.buffer.length := fun hp => h2 hp.2.2
      rw [if_pos h1, if_neg h2] at h
      obtain rfl := Except.ok.inj h
      simp [hnp]
  · have hnp : ¬updatePred cfg algo t s.buffer.length := fun hp => h1 ⟨hp.1, hp.2.1⟩
    rw [if_neg h1] at h
    obtain rfl := Except.ok.inj h
    simp [hnp]

lemma updateBlock_error_pred (cfg : TrainCfg) (algo : AlgoModel) (t : Nat)
    (s : TrainState) (e : RunError) (h : updateBlock cfg algo t s = Except.error e) :
    updatePred cfg algo t s.buffer.length := by
  unfold updateBlock at h
  by_cases h1 : t > cfg.update_start_step ∧ s.buffer.length > algo.batch_size
  · by_cases h2 : t % cfg.update_interval = 0
    · exact ⟨h1.1, h1.2, h2⟩
    · simp [h1, h2] at h
  · rw [if_neg h1] at h
    exact absurd h (by simp)

lemma epochBlock_proj (cfg : TrainCfg) (t : Nat) (s : TrainState) :
    (epochBlock cfg t s).buffer = s.buffer ∧
    (epochBlock cfg t s).observation = s.observation ∧
    (epochBlock cfg t s).resetCount = s.resetCount ∧
    (epochBlock cfg t s).rollout_return = s.rollout_return ∧
    (epochBlock cfg t s).stacker = s.stacker ∧
    (epochBlock cfg t s).demo_buffer = s.demo_buffer ∧
    (epochBlock cfg t s).modes = s.modes ∧
    (epochBlock cfg t s).steppedActions = s.steppedActions ∧
    (epochBlock cfg t s).unscaled_action = s.unscaled_action ∧
    (epochBlock cfg t s).updates = s.updates ∧
    ∃ ms, (epochBlock cfg t s).metrics = s.metrics ++ ms := by
  unfold epochBlock
  by_cases h1 : t / cfg.n_steps_per_epoch > 0 ∧ t % cfg.n_steps_per_epoch = 0
  · cases hev : cfg.has_eval <;>
      by_cases hsv : (t / cfg.n_steps_per_epoch) % cfg.save_interval = 0 <;>
      simp [h1, hev, hsv]
  · simp [h1]

lemma updateBlock_bc (cfg : TrainCfg) (algo : AlgoModel) (t : Nat) (s s' : TrainState)
    (db : List Transition) (hbc : cfg.bc_loss = true) (hdb : s.demo_buffer = some db)
    (h : updateBlock cfg algo t s = Except.ok s') :
    s'.updates = s.updates ∨
    (s.buffer ≠ [] ∧
      s'.updates = s.updates ++
        [⟨t, to_minibatch (sample_trainsitions s.buffer algo.batch_size ++
            sample_trainsitions db 128),
          some (to_minibatch (sample_trainsitions db 128))⟩]) := by
  unfold updateBlock at h
  by_cases h1 : t > cfg.update_start_step ∧ s.buffer.length > algo.batch_size
  · by_cases h2 : t % cfg.update_interval = 0
    · rw [if_pos h1, if_pos h2] at h
      cases hupd : algo.update s.updateCalls
          (to_minibatch (sample_trainsitions s.buffer algo.batch_size ++
            sample_trainsitions db 128))
          (some (to_minibatch (sample_trainsitions db 128))) <;>
        simp [hbc, hdb, hupd] at h
      subst h
      refine Or.inr ⟨?_, by simp⟩
      have hpos : 0 < s.buffer.length := lt_of_le_of_lt (Nat.zero_le _) h1.2
      exact List.ne_nil_of_length_pos hpos
    · rw [if_pos h1, if_neg h2] at h
      obtain rfl := Except.ok.inj h
      exact Or.inl rfl
  · rw [if_neg h1] at h
    obtain rfl := Except.ok.inj h
    exact Or.inl rfl

lemma fedObs_fst (env : EnvModel) (nf : Nat) (s : TrainState) :
    (fedObs env nf s).1 =
      { s with stacker :=
          if env.is_image then stackAppend nf s.stacker s.observation else s.stacker } := by
  unfold fedObs
  cases h : env.is_image <;> simp [h]

lemma stateOf_trainAfterStep (cfg : TrainCfg) (env : EnvModel) (algo : AlgoModel)
    (t : Nat) (action no r : ℚ) (term trunc : Bool) (s : TrainState) :
    (∃ s3, updateBlock cfg algo t (episodeBlock cfg env action no r term trunc s) = Except.ok s3 ∧
       trainAfterStep cfg env algo t action no r term trunc s = Except.ok (epochBlock cfg t s3) ∧
       stateOf (trainAfterStep cfg env algo t action no r term trunc s) = epochBlock cfg t s3) ∨
    (∃ e, updateBlock cfg algo t (episodeBlock cfg env action no r term trunc s) = Except.error e ∧
       trainAfterStep cfg env algo t action no r term trunc s = Except.error e ∧
       stateOf (trainAfterStep cfg env algo t action no r term trunc s) = e.state) := by
  unfold trainAfterStep
  cases h : updateBlock cfg algo t (episodeBlock cfg env action no r term trunc s) with
  | error e => exact Or.inr ⟨e, rfl, rfl, rfl⟩
  | ok s3 => exact Or.inl ⟨s3, rfl, rfl, rfl⟩

lemma runStep_cases (cfg : TrainCfg) (env : EnvModel) (algo : AlgoModel)
    (explorer : Option ExplorerModel) (t : Nat) (s : TrainState) :
    (∃ e, runStep cfg env algo explorer t s = Except.error e ∧
       (e.kind = ErrKind.nameError ∨ e.kind = ErrKind.envStepError) ∧
       e.state.updates = s.updates ∧ e.state.buffer = s.buffer ∧
       e.state.modes = s.modes ++ [selMode cfg explorer t]) ∨
    (∃ s2 action no r term trunc,
       runStep cfg env algo explorer t s =
         trainAfterStep cfg env algo t action no r term trunc s2 ∧
       s2.buffer = s.buffer ∧ s2.updates = s.updates ∧ s2.metrics = s.metrics ∧
       s2.observation = s.observation ∧ s2.rollout_return = s.rollout_return ∧
       s2.demo_buffer = s.demo_buffer ∧ s2.resetCount = s.resetCount ∧
       s2.modes = s.modes ++ [selMode cfg explorer t]) := by
  unfold runStep
  rw [fedObs_fst]
  by_cases hR : t < cfg.random_steps
  · simp only [selectAction, selMode, if_pos hR]
    cases hstep : env.step s.stepCalls (env.sample s.sampleCalls) with
    | none =>
      exact Or.inl ⟨_, rfl, Or.inr rfl, rfl, rfl, rfl⟩
    | some q =>
      obtain ⟨no, r, term, trunc⟩ := q
      exact Or.inr ⟨_, _, no, r, term, trunc, rfl, rfl, rfl, rfl, rfl, rfl, rfl, rfl, rfl⟩
  · cases hex : explorer with
    | some ex =>
      simp only [selectAction, selMode, if_neg hR]
      cases hua : s.unscaled_action with
      | none =>
        exact Or.inl ⟨_, rfl, Or.inl rfl, rfl, rfl, rfl⟩
      | some ua =>
        dsimp only
        cases hstep : env.step s.stepCalls ua with
        | none =>
          exact Or.inl ⟨_, rfl, Or.inr rfl, rfl, rfl, rfl⟩
        | some q =>
          obtain ⟨no, r, term, trunc⟩ := q
          exact Or.inr ⟨_, _, no, r, term, trunc, rfl, rfl, rfl, rfl, rfl, rfl, rfl, rfl, rfl⟩
    | none =>
      simp only [selectAction, selMode, if_neg hR]
      cases hstep : env.step s.stepCalls
          (unscale1 env.low env.high
            (algo.sample_action (fedObs env algo.n_frames s).2)) with
      | none =>
        exact Or.inl ⟨_, rfl, Or.inr rfl, rfl, rfl, rfl⟩
      | some q =>
        obtain ⟨no, r, term, trunc⟩ := q
        exact Or.inr ⟨_, _, no, r, term, trunc, rfl, rfl, rfl, rfl, rfl, rfl, rfl, rfl, rfl⟩

lemma trainAfterStep_state (cfg : TrainCfg) (env : EnvModel) (algo : AlgoModel)
    (t : Nat) (action no r : ℚ) (term trunc : Bool) (s : TrainState) :
    (stateOf (trainAfterStep cfg env algo t action no r term trunc s)).buffer =
        s.buffer ++ [trainAppendedTr cfg.timelimit_aware s.observation action r term trunc] ∧
    (stateOf (trainAfterStep cfg env algo t action no r term trunc s)).observation =
        (if (trainAppendedTr cfg.timelimit_aware s.observation action r term trunc).clip_episode
         then env.reset s.resetCount else no) ∧
    (stateOf (trainAfterStep cfg env algo t action no r term trunc s)).resetCount =
        (if (trainAppendedTr cfg.timelimit_aware s.observation action r term trunc).clip_episode
         then s.resetCount + 1 else s.resetCount) ∧
    (stateOf (trainAfterStep cfg env algo t action no r term trunc s)).rollout_return =
        (if (trainAppendedTr cfg.timelimit_aware s.observation action r term trunc).clip_episode
         then 0 else s.rollout_return + r) ∧
    (stateOf (trainAfterStep cfg env algo t action no r term trunc s)).stacker =
        (if (trainAppendedTr cfg.timelimit_aware s.observation action r term trunc).clip_episode
            && env.is_image then [] else s.stacker) ∧
    (stateOf (trainAfterStep cfg env algo t action no r term trunc s)).modes = s.modes ∧
    (stateOf (trainAfterStep cfg env algo t action no r term trunc s)).demo_buffer =
        s.demo_buffer ∧
    ∃ ms, (stateOf (trainAfterStep cfg env algo t action no r term trunc s)).metrics =
        s.metrics ++
          (if (trainAppendedTr cfg.timelimit_aware s.observation action r term trunc).clip_episode
           then [("rollout_return", s.rollout_return + r)] else []) ++ ms := by
  have hblock := updateBlock_proj cfg algo t (episodeBlock cfg env action no r term trunc s)
  rcases stateOf_trainAfterStep cfg env algo t action no r term trunc s with
    ⟨s3, hub, _, hst⟩ | ⟨e, hub, _, hst⟩
  · rw [hub] at hblock
    dsimp only [stateOf] at hblock
    rw [episodeBlock_eq] at hblock
    dsimp only at hblock
    obtain ⟨hb, ho, hrc, hrr, hstk, hdb, hm, hsa, hun, ms1, hms⟩ := hblock
    obtain ⟨eb, eo, erc, err', estk, edb, em, esa, eun, eup, ms2, ems⟩ :=
      epochBlock_proj cfg t s3
    rw [hst]
    refine ⟨?_, ?_, ?_, ?_, ?_, ?_, ?_, ⟨ms1 ++ ms2, ?_⟩⟩
    · rw [eb, hb]
    · rw [eo, ho]
    · rw [erc, hrc]
    · rw [err', hrr]
    · rw [estk, hstk]
    · rw [em, hm]
    · rw [edb, hdb]
    · rw [ems, hms, List.append_assoc]
  · rw [hub] at hblock
    dsimp only [stateOf] at hblock
    rw [episodeBlock_eq] at hblock
    dsimp only at hblock
    obtain ⟨hb, ho, hrc, hrr, hstk, hdb, hm, hsa, hun, ms1, hms⟩ := hblock
    rw [hst]
    exact ⟨hb, ho, hrc, hrr, hstk, hm, hdb, ⟨ms1, hms⟩⟩

lemma length_filter_range'_lt (m : Nat) :
    ∀ n : Nat, ((List.range' 1 n).filter (fun t => decide (t < m))).length = min (m - 1) n := by
  intro n
  induction n with
  | zero => simp
  | succ k ih =>
    rw [List.range'_concat, List.filter_append, List.length_append, ih]
    by_cases hk : 1 + 1 * k < m
    · simp only [List.filter_singleton, decide_eq_true hk, cond_true, List.length_singleton]
      omega
    · simp only [List.filter_singleton, decide_eq_false hk, cond_false, List.length_nil]
      omega

end OnlineIter

/-- C7: for every action space with componentwise bounds `low ≤ high` and
every action `a` with `low ≤ a ≤ high` componentwise,
`unscale_action (scale_action a)` equals `a` exactly under exact rational
arithmetic (the `(high - low + 1e-8)` factors cancel), hence in particular
within `1e-6` absolute error in every component. -/
theorem C7_unscale_scale_roundtrip (space : List (ℚ × ℚ)) (a : List ℚ)
    (h : List.Forall₂ (fun b x => b.1 ≤ x ∧ x ≤ b.2) space a) :
    OnlineIter.unscale_action space (OnlineIter.scale_action space a) = a ∧
    List.Forall₂ (fun x y => |x - y| ≤ 1/1000000)
      (OnlineIter.unscale_action space (OnlineIter.scale_action space a)) a := by
  have heq : OnlineIter.unscale_action space (OnlineIter.scale_action space a) = a := by
    induction h with
    | nil => rfl
    | cons hbx _ ih =>
      simp only [OnlineIter.scale_action, OnlineIter.unscale_action,
        List.zipWith_cons_cons] at ih ⊢
      rw [OnlineIter.unscale1_scale1 _ _ _ hbx.1 hbx.2]
      rw [ih]
  refine ⟨heq, ?_⟩
  rw [heq, List.forall₂_same]
  intro x _
  simp

/-- Witness for C7: a concrete in-bounds action roundtrips exactly. -/
theorem C7_unscale_scale_roundtrip_witness :
    OnlineIter.unscale_action [((0:ℚ), (2:ℚ)), ((-1:ℚ), (1:ℚ))]
        (OnlineIter.scale_action [((0:ℚ), (2:ℚ)), ((-1:ℚ), (1:ℚ))] [(1:ℚ), (1/2:ℚ)]) =
      [(1:ℚ), (1/2:ℚ)] :=
  (C7_unscale_scale_roundtrip [((0:ℚ), (2:ℚ)), ((-1:ℚ), (1:ℚ))] [(1:ℚ), (1/2:ℚ)]
    (by constructor
        · constructor <;> norm_num
        · constructor
          · constructor <;> norm_num
          · exact List.Forall₂.nil)).1

namespace OnlineIter

/-- Claim C1: in `train_single_env`, for every step `total_step`, the
algorithm's update is invoked at that step iff
`total_step > update_start_step ∧ len(buffer) > batch_size ∧
total_step % update_interval == 0` (the buffer length taken at the check
point, i.e. after this step's single append); when the predicate is false
the update is skipped without error — any update-machinery error implies
the predicate held. -/
theorem C1_update_trigger (cfg : TrainCfg) (env : EnvModel) (algo : AlgoModel)
    (explorer : Option ExplorerModel) (t : Nat) (s : TrainState) :
    (∀ s', runStep cfg env algo explorer t s = Except.ok s' →
       ((s'.updates.length = s.updates.length + 1) ↔
         updatePred cfg algo t (s.buffer.length + 1)) ∧
       (¬updatePred cfg algo t (s.buffer.length + 1) → s'.updates = s.updates)) ∧
    (∀ e, runStep cfg env algo explorer t s = Except.error e →
       (e.kind = ErrKind.updateError ∨ e.kind = ErrKind.demoNameError) →
       updatePred cfg algo t (s.buffer.length + 1)) := by
  obtain hcase := runStep_cases cfg env algo explorer t s
  constructor
  · intro s' hok
    rcases hcase with ⟨e, he, _⟩ | ⟨s2, action, no, r, term, trunc, heq,
        hbuf, hupd, _, _, _, hdemo, _, _⟩
    · rw [he] at hok
      exact absurd hok (by simp)
    · rw [heq] at hok
      rcases stateOf_trainAfterStep cfg env algo t action no r term trunc s2 with
        ⟨s3, hub, htas, _⟩ | ⟨e, hub, htas, _⟩
      · rw [htas] at hok
        obtain rfl := Except.ok.inj hok
        obtain ⟨_, _, _, _, _, _, _, _, _, hupdEpoch, _⟩ := epochBlock_proj cfg t s3
        have hups := updateBlock_ok_updates cfg algo t _ s3 hub
        have h1 : (episodeBlock cfg env action no r term trunc s2).updates = s.updates := by
          rw [episodeBlock_eq]
          dsimp only
          exact hupd
        have h2 : (episodeBlock cfg env action no r term trunc s2).buffer.length =
            s.buffer.length + 1 := by
          rw [episodeBlock_eq]
          dsimp only
          rw [List.length_append, hbuf]
          rfl
        rw [h1, h2] at hups
        exact ⟨by rw [hupdEpoch]; exact hups.1, fun hnp => by rw [hupdEpoch]; exact hups.2 hnp⟩
      · rw [htas] at hok
        exact absurd hok (by simp)
  · intro e herr hkind
    rcases hcase with ⟨e', he', hk', _⟩ | ⟨s2, action, no, r, term, trunc, heq,
        hbuf, hupd, _, _, _, hdemo, _, _⟩
    · rw [he'] at herr
      obtain rfl := Except.error.inj herr
      rcases hk' with hk' | hk' <;> rcases hkind with hkind | hkind <;> simp [hk'] at hkind
    · rw [heq] at herr
      rcases stateOf_trainAfterStep cfg env algo t action no r term trunc s2 with
        ⟨s3, hub, htas, _⟩ | ⟨e2, hub, htas, _⟩
      · rw [htas] at herr
        exact absurd herr (by simp)
      · have hp := updateBlock_error_pred cfg algo t _ e2 hub
        have h2 : (episodeBlock cfg env action no r term trunc s2).buffer.length =
            s.buffer.length + 1 := by
          rw [episodeBlock_eq]
          dsimp only
          rw [List.length_append, hbuf]
          rfl
        rw [h2] at hp
        exact hp

/-- Witness for C1: a concrete successful step whose update fires exactly
when the predicate holds. -/
theorem C1_update_trigger_witness :
    s1Fix.updates.length = stFix.updates.length + 1 ↔
      updatePred cfg0 algoSmall 1 (stFix.buffer.length + 1) :=
  ((C1_update_trigger cfg0 envOk algoSmall none 1 stFix).1 s1Fix rfl).1

end OnlineIter

namespace OnlineIter

/-- Claim C2 (code bug evidence): in the Explore branch the source never
assigns `unscaled_action`, so `env.step(unscaled_action)` reads a stale or
unbound local.  Concretely: with an explorer configured and
`random_steps = 0`, the very first step raises an `UnboundLocalError`
(name error); and with `random_steps = 2, n_steps = 2`, step 2 passes step
1's random raw action (`7`) to `env.step` regardless of which explorer is
configured — the stepped action is independent of the explorer's output,
contradicting the claim that it derives from `Explorer.sample` at that
step. -/
theorem C2_explorer_stale_action_bug :
    errKind (train_single_env cfg0 envOk algoBig (some explorer99) []) =
      some ErrKind.nameError ∧
    steppedOf (train_single_env cfgStale envOk algoBig (some explorer99) []) = [7, 7] ∧
    steppedOf (train_single_env cfgStale envOk algoBig (some explorer55) []) = [7, 7] :=
  ⟨rfl, rfl, rfl⟩

/-- Claim C3: every transition appended by the step loop has
`terminal = false, clip_episode = true` when `timelimit_aware` holds and
the info carried the truncation flag, and `clip_episode = terminal`
otherwise; hence `terminal = true` implies `clip_episode = true`. -/
theorem C3_terminal_implies_clip (cfg : TrainCfg) (env : EnvModel) (algo : AlgoModel)
    (t : Nat) (action no r : ℚ) (term trunc : Bool) (s : TrainState) :
    (stateOf (trainAfterStep cfg env algo t action no r term trunc s)).buffer =
      s.buffer ++ [trainAppendedTr cfg.timelimit_aware s.observation action r term trunc] ∧
    ((cfg.timelimit_aware && trunc) = true →
      (trainAppendedTr cfg.timelimit_aware s.observation action r term trunc).terminal = false ∧
      (trainAppendedTr cfg.timelimit_aware s.observation action r term trunc).clip_episode = true) ∧
    ((cfg.timelimit_aware && trunc) = false →
      (trainAppendedTr cfg.timelimit_aware s.observation action r term trunc).terminal = term ∧
      (trainAppendedTr cfg.timelimit_aware s.observation action r term trunc).clip_episode =
        (trainAppendedTr cfg.timelimit_aware s.observation action r term trunc).terminal) ∧
    ((trainAppendedTr cfg.timelimit_aware s.observation action r term trunc).terminal = true →
      (trainAppendedTr cfg.timelimit_aware s.observation action r term trunc).clip_episode = true) := by
  refine ⟨(trainAfterStep_state cfg env algo t action no r term trunc s).1, ?_, ?_, ?_⟩
  · intro h
    unfold trainAppendedTr trainClip
    rw [h]
    simp
  · intro h
    unfold trainAppendedTr trainClip
    rw [h]
    simp
  · intro h
    unfold trainAppendedTr trainClip at h ⊢
    by_cases hc : (cfg.timelimit_aware && trunc) = true
    · rw [if_pos hc]
    · rw [if_neg hc] at h ⊢
      simp only at h ⊢
      exact h

/-- Witness for C3: on a concrete truncated step the appended transition
has `terminal = false` and `clip_episode = true`. -/
theorem C3_terminal_implies_clip_witness :
    (trainAppendedTr cfg0.timelimit_aware stFix.observation 1 1 false true).terminal = false ∧
    (trainAppendedTr cfg0.timelimit_aware stFix.observation 1 1 false true).clip_episode = true :=
  (C3_terminal_implies_clip cfg0 envOk algoBig 1 1 6 1 false true stFix).2.1 (by decide)

/-- Claim C4 (amended): the trailing `buffer.clip_episode()` and
`logger.close()` execute whenever `train_single_env` returns normally; a
run interrupted by a propagated exception skips both (there is no
`try/finally` in the source — see the counterexample). -/
theorem C4_cleanup_on_normal_exit (cfg : TrainCfg) (env : EnvModel) (algo : AlgoModel)
    (explorer : Option ExplorerModel) (buffer0 : List Transition) (fs : FinalState)
    (h : train_single_env cfg env algo explorer buffer0 = Except.ok fs) :
    fs.finalClipCalled = true ∧ fs.loggerClosed = true := by
  unfold train_single_env at h
  dsimp only at h
  cases hl : runLoop cfg env algo explorer (List.range' 1 cfg.n_steps)
      (setupDemo cfg env (initState env buffer0)) <;> rw [hl] at h
  · exact absurd h (by simp)
  · obtain rfl := Except.ok.inj h
    exact ⟨rfl, rfl⟩

/-- Counterexample to C4 as stated: a run interrupted by an exception from
`env.step` at step 1 exits without running the trailing cleanup. -/
theorem C4_exception_skips_cleanup :
    errKind (train_single_env cfg0 envBad algoBig none []) = some ErrKind.envStepError ∧
    cleanupRan (train_single_env cfg0 envBad algoBig none []) = false :=
  ⟨rfl, rfl⟩

/-- Witness for C4: a concrete normally-terminating run does execute both
cleanup actions. -/
theorem C4_cleanup_on_normal_exit_witness :
    runOkFinal.finalClipCalled = true ∧ runOkFinal.loggerClosed = true :=
  C4_cleanup_on_normal_exit cfg0 envOk algoBig none [] runOkFinal rfl

end OnlineIter

namespace OnlineIter

/-- Claim C5: in the step loop, when the step's transition has
`clip_episode = true` the environment is reset, the accumulated rollout
return is logged and the accumulator reset to 0, and the frame stacker is
cleared when the observation is image-shaped; when `clip_episode = false`
the current observation advances to the environment's next observation and
none of those resets occur (the reset block logs no metric). -/
theorem C5_episode_boundary (cfg : TrainCfg) (env : EnvModel) (algo : AlgoModel)
    (t : Nat) (action no r : ℚ) (term trunc : Bool) (s : TrainState)
    (tr : Transition) (s' : TrainState)
    (htr : tr = trainAppendedTr cfg.timelimit_aware s.observation action r term trunc)
    (hs' : s' = stateOf (trainAfterStep cfg env algo t action no r term trunc s)) :
    (tr.clip_episode = true →
       s'.observation = env.reset s.resetCount ∧
       s'.resetCount = s.resetCount + 1 ∧
       s'.rollout_return = 0 ∧
       (env.is_image = true → s'.stacker = []) ∧
       ∃ ms, s'.metrics = s.metrics ++ [("rollout_return", s.rollout_return + r)] ++ ms) ∧
    (tr.clip_episode = false →
       s'.observation = no ∧
       s'.resetCount = s.resetCount ∧
       s'.rollout_return = s.rollout_return + r ∧
       s'.stacker = s.stacker ∧
       ∃ ms, s'.metrics = s.metrics ++ ms) := by
  subst htr hs'
  obtain ⟨_, ho, hrc, hrr, hstk, _, _, ms, hms⟩ :=
    trainAfterStep_state cfg env algo t action no r term trunc s
  constructor
  · intro hc
    refine ⟨by rw [ho, hc]; simp, by rw [hrc, hc]; simp, by rw [hrr, hc]; simp, ?_,
      ⟨ms, by rw [hms, hc]; simp⟩⟩
    intro himg
    rw [hstk, hc, himg]
    simp
  · intro hc
    refine ⟨by rw [ho, hc]; simp, by rw [hrc, hc]; simp, by rw [hrr, hc]; simp,
      by rw [hstk, hc]; simp, ⟨ms, by rw [hms, hc]; simp⟩⟩

/-- Witness for C5: a concrete truncated step resets the environment and
zeroes the rollout accumulator. -/
theorem C5_episode_boundary_witness :
    s5Fix.observation = envOk.reset stFix.resetCount ∧ s5Fix.rollout_return = 0 :=
  have h := (C5_episode_boundary cfg0 envOk algoBig 1 1 6 1 false true stFix
    tr5Fix s5Fix rfl rfl).1 (by decide)
  ⟨h.1, h.2.2.1⟩

/-- Claim C6: with behavior cloning enabled and a demonstration file given,
demo transitions go only to the separate demonstration buffer (action
rescaled to normalized range, `terminal` and `clip_episode` both from the
recorded `done`), the primary buffer receives none of them; and every
fired update records a non-null `demo_batch` of fixed size 128 drawn from
the demonstration buffer, the primary batch being the minibatch built from
the concatenation of a primary sample and that demo sample. -/
theorem C6_bc_demo_routing (demos : List (List DemoStep)) :
    (∀ (cfg : TrainCfg) (env : EnvModel) (s : TrainState),
       cfg.bc_loss = true → cfg.load_demo = some demos →
       (setupDemo cfg env s).buffer = s.buffer ∧
       (setupDemo cfg env s).demo_buffer =
         some ((demos.map (fun ep => ep.map (mkDemoTransition env))).flatten) ∧
       (∀ (env2 : EnvModel) (d : DemoStep),
          (mkDemoTransition env2 d).action = scale1 env2.low env2.high d.act ∧
          (mkDemoTransition env2 d).terminal = d.done ∧
          (mkDemoTransition env2 d).clip_episode = d.done)) ∧
    (∀ (cfg : TrainCfg) (env : EnvModel) (algo : AlgoModel) (t : Nat)
       (action no r : ℚ) (term trunc : Bool) (s s' : TrainState) (db : List Transition),
       cfg.bc_loss = true → s.demo_buffer = some db → db ≠ [] →
       trainAfterStep cfg env algo t action no r term trunc s = Except.ok s' →
       s'.updates = s.updates ∨
       ∃ dt pt, dt.length = 128 ∧ (∀ x ∈ dt, x ∈ db) ∧
         pt.length = algo.batch_size ∧
         (∀ x ∈ pt, x ∈ s.buffer ++
           [trainAppendedTr cfg.timelimit_aware s.observation action r term trunc]) ∧
         s'.updates = s.updates ++ [⟨t, to_minibatch (pt ++ dt), some (to_minibatch dt)⟩]) := by
  constructor
  · intro cfg env s hbc hld
    refine ⟨?_, ?_, fun env2 d => ⟨rfl, rfl, rfl⟩⟩ <;>
      · unfold setupDemo
        rw [hld, hbc]
        simp
  · intro cfg env algo t action no r term trunc s s' db hbc hdb hne htas
    rcases stateOf_trainAfterStep cfg env algo t action no r term trunc s with
      ⟨s3, hub, htas', _⟩ | ⟨e, hub, htas', _⟩
    · rw [htas'] at htas
      obtain rfl := Except.ok.inj htas
      have hepidemo : (episodeBlock cfg env action no r term trunc s).demo_buffer = some db := by
        rw [episodeBlock_eq]
        dsimp only
        exact hdb
      have hepibuf : (episodeBlock cfg env action no r term trunc s).buffer =
          s.buffer ++ [trainAppendedTr cfg.timelimit_aware s.observation action r term trunc] := by
        rw [episodeBlock_eq]
      obtain ⟨_, _, _, _, _, _, _, _, _, hupdEpoch, _⟩ := epochBlock_proj cfg t s3
      have hbcres := updateBlock_bc cfg algo t _ s3 db hbc hepidemo hub
      have hepiupd : (episodeBlock cfg env action no r term trunc s).updates = s.updates := by
        rw [episodeBlock_eq]
      rcases hbcres with hsame | ⟨hne2, hev⟩
      · left
        rw [hupdEpoch, hsame, hepiupd]
      · right
        refine ⟨sample_trainsitions db 128,
          sample_trainsitions (episodeBlock cfg env action no r term trunc s).buffer algo.batch_size,
          sample_trainsitions_length db 128,
          fun x hx => sample_trainsitions_mem db 128 hne x hx,
          sample_trainsitions_length _ algo.batch_size,
          fun x hx => ?_, ?_⟩
        · rw [← hepibuf]
          exact sample_trainsitions_mem _ algo.batch_size hne2 x hx
        · rw [hupdEpoch, hev, hepiupd]
    · rw [htas'] at htas
      exact absurd htas (by simp)

/-- Witness for C6: loading the concrete two-episode demo file under
behavior cloning leaves the primary buffer empty and creates the demo
buffer; the subsequent concrete step fires an update carrying a demo
batch. -/
theorem C6_bc_demo_routing_witness :
    stBC.buffer = (initState envOk []).buffer ∧
    stBC.demo_buffer = some dbBC ∧
    s6Fix.updates.length = 1 := by
  have ha := (C6_bc_demo_routing demoEps).1 cfgBC envOk (initState envOk []) rfl rfl
  have hb := (C6_bc_demo_routing demoEps).2 cfgBC envOk algoSmall 1 1 6 1 false false
    stBC s6Fix dbBC rfl rfl (by decide) rfl
  exact ⟨ha.1, ha.2.1, rfl⟩

end OnlineIter

namespace OnlineIter

lemma collectAppendedTr_eq_train (ta : Bool) (o a r : ℚ) (term trunc : Bool) :
    collectAppendedTr ta o a r term trunc = trainAppendedTr ta o a r term trunc := rfl

lemma collectAfterStep_eq (env : EnvModel) (ta : Bool) (action no r : ℚ)
    (term trunc : Bool) (c : CollectState) :
    collectAfterStep env ta action no r term trunc c =
      { c with
        buffer := c.buffer ++ [collectAppendedTr ta c.observation action r term trunc],
        observation :=
          if (collectAppendedTr ta c.observation action r term trunc).clip_episode
          then env.reset c.resetCount else no,
        resetCount :=
          if (collectAppendedTr ta c.observation action r term trunc).clip_episode
          then c.resetCount + 1 else c.resetCount,
        stacker :=
          if (collectAppendedTr ta c.observation action r term trunc).clip_episode
            && env.is_image then [] else c.stacker } := by
  unfold collectAfterStep
  cases h : (collectAppendedTr ta c.observation action r term trunc).clip_episode <;>
    cases hI : env.is_image <;> simp [h, hI]

lemma collectFedObs_fst (env : EnvModel) (nf : Nat) (c : CollectState) :
    (collectFedObs env nf c).1 =
      { c with stacker :=
          if env.is_image then stackAppend nf c.stacker c.observation else c.stacker } := by
  unfold collectFedObs
  cases h : env.is_image <;> simp [h]

/-- Claim C8 (amended): `collect` applies the same episode-boundary logic
as `train_single_env` (identical appended transition, identical reset /
advance / stacker-clear behavior, trailing `clip_episode` on normal
completion); its action selection has no Random phase and follows the
Explore/Exploit priority, with the `deterministic` flag forcing `predict`;
and the selected action is passed to `env.step` as-is, without the
rescaling the training loop applies (see the counterexample for the
as-stated claim). -/
theorem C8_collect_vs_train (cfg : TrainCfg) (env : EnvModel) (algo : AlgoModel)
    (t : Nat) (action no r : ℚ) (term trunc : Bool) :
    (∀ (c : CollectState) (s : TrainState),
       c.observation = s.observation → c.buffer = s.buffer →
       c.resetCount = s.resetCount → c.stacker = s.stacker →
       (collectAfterStep env cfg.timelimit_aware action no r term trunc c).buffer =
         (stateOf (trainAfterStep cfg env algo t action no r term trunc s)).buffer ∧
       (collectAfterStep env cfg.timelimit_aware action no r term trunc c).observation =
         (stateOf (trainAfterStep cfg env algo t action no r term trunc s)).observation ∧
       (collectAfterStep env cfg.timelimit_aware action no r term trunc c).resetCount =
         (stateOf (trainAfterStep cfg env algo t action no r term trunc s)).resetCount ∧
       (collectAfterStep env cfg.timelimit_aware action no r term trunc c).stacker =
         (stateOf (trainAfterStep cfg env algo t action no r term trunc s)).stacker) ∧
    (∀ (ex : Option ExplorerModel) (fed : FedObs) (u : Nat),
       collectSelect algo ex true fed u = algo.predict fed) ∧
    (∀ (ex : ExplorerModel) (fed : FedObs) (u : Nat),
       collectSelect algo (some ex) false fed u = ex fed u) ∧
    (∀ (fed : FedObs) (u : Nat),
       collectSelect algo none false fed u = algo.sample_action fed) ∧
    (∀ (ex : Option ExplorerModel) (det ta : Bool) (c : CollectState),
       (cStateOf (collectStep env algo ex det ta t c)).steppedActions =
         c.steppedActions ++
           [collectSelect algo ex det (collectFedObs env algo.n_frames c).2 t]) ∧
    (∀ (ex : Option ExplorerModel) (det ta : Bool) (n : Nat)
       (buf0 : List Transition) (fs : CollectFinal),
       collect env algo ex det ta n buf0 = Except.ok fs → fs.finalClipCalled = true) := by
  refine ⟨?_, fun ex fed u => rfl, fun ex fed u => rfl, fun fed u => rfl, ?_, ?_⟩
  · intro c s hobs hbuf hrc hstk
    obtain ⟨tb, tobs, trc, _, tstk, _, _, _⟩ :=
      trainAfterStep_state cfg env algo t action no r term trunc s
    rw [collectAfterStep_eq]
    dsimp only
    rw [collectAppendedTr_eq_train, hobs, hbuf, hrc, hstk]
    exact ⟨tb.symm, tobs.symm, trc.symm, tstk.symm⟩
  · intro ex det ta c
    unfold collectStep
    rw [collectFedObs_fst]
    dsimp only
    cases hstep : env.step c.stepCalls
        (collectSelect algo ex det (collectFedObs env algo.n_frames c).2 t) with
    | none => rfl
    | some q =>
      obtain ⟨no2, r2, term2, trunc2⟩ := q
      dsimp only [cStateOf]
      rw [collectAfterStep_eq]
  · intro ex det ta n buf0 fs h
    unfold collect at h
    dsimp only at h
    cases hl : collectLoop env algo ex det ta (List.range' 1 n)
        { observation := env.reset 0, buffer := buf0, stacker := [],
          resetCount := 1, stepCalls := 0, steppedActions := [] } <;> rw [hl] at h
    · exact absurd h (by simp)
    · obtain rfl := Except.ok.inj h
      rfl

/-- Counterexample to C8 as stated: a concrete `collect` run passes the
selected action (`1`) to `env.step` unrescaled, while the rescaling of the
training loop would pass `unscale_action` of it, which differs. -/
theorem C8_collect_no_rescale_counterexample :
    cSteppedOf (collect envOk algoBig none false true 1 []) = [1] ∧
    unscale1 envOk.low envOk.high 1 ≠ 1 := by
  refine ⟨rfl, ?_⟩
  norm_num [unscale1, envOk]

/-- Witness for C8: the concrete deterministic selection uses `predict`,
the concrete step passes the selected action to `env.step`, and the
concrete episode-boundary blocks of `collect` and `train_single_env`
produce equal observations. -/
theorem C8_collect_vs_train_witness :
    collectSelect algoBig none true (FedObs.plain 5) 1 = algoBig.predict (FedObs.plain 5) ∧
    (cStateOf (collectStep envOk algoBig none false true 1 cInit)).steppedActions =
      cInit.steppedActions ++
        [collectSelect algoBig none false (collectFedObs envOk algoBig.n_frames cInit).2 1] ∧
    (collectAfterStep envOk cfg0.timelimit_aware 1 6 1 false false cInit).observation =
      (stateOf (trainAfterStep cfg0 envOk algoBig 1 1 6 1 false false stFix)).observation := by
  have h := C8_collect_vs_train cfg0 envOk algoBig 1 1 6 1 false false
  exact ⟨h.2.1 none (FedObs.plain 5) 1, h.2.2.2.2.1 none false true cInit,
    (h.1 cInit stFix rfl rfl rfl rfl).2.1⟩

end OnlineIter

/-- Claim C9: every `_FQEBase` operation needing the wrapped algorithm
(`predict`, `sample_action`, `save_policy`, `inner_update`) fails
immediately with the algorithm-not-given assertion error when the wrapped
algorithm is absent — `inner_update` checks it before the implementation,
so no later null-dereference-style failure occurs — and with the algorithm
present, `predict` and `sample_action` return exactly its outputs. -/
theorem C9_fqe_algo_guard :
    (∀ (f : FQE.FQEBase) (x : FQE.Obs), f._algo = none →
       FQE.predict f x = Except.error FQE.FQEError.algoNotGiven) ∧
    (∀ (f : FQE.FQEBase) (x : FQE.Obs), f._algo = none →
       FQE.sample_action f x = Except.error FQE.FQEError.algoNotGiven) ∧
    (∀ (f : FQE.FQEBase) (nm : String), f._algo = none →
       FQE.save_policy f nm = Except.error FQE.FQEError.algoNotGiven) ∧
    (∀ (f : FQE.FQEBase) (b : FQE.TorchMiniBatch), f._algo = none →
       FQE.inner_update f b = Except.error FQE.FQEError.algoNotGiven) ∧
    (∀ (f : FQE.FQEBase) (a : FQE.WrappedAlgo) (x : FQE.Obs), f._algo = some a →
       FQE.predict f x = Except.ok (a.predict x)) ∧
    (∀ (f : FQE.FQEBase) (a : FQE.WrappedAlgo) (x : FQE.Obs), f._algo = some a →
       FQE.sample_action f x = Except.ok (a.sample_action x)) := by
  refine ⟨?_, ?_, ?_, ?_, ?_, ?_⟩
  · intro f x h
    unfold FQE.predict
    rw [h]
  · intro f x h
    unfold FQE.sample_action
    rw [h]
  · intro f nm h
    unfold FQE.save_policy
    rw [h]
  · intro f b h
    unfold FQE.inner_update
    rw [h]
  · intro f a x h
    unfold FQE.predict
    rw [h]
  · intro f a x h
    unfold FQE.sample_action
    rw [h]

/-- Witness for C9: a concrete FQE instance without an algorithm (but with
a built implementation) fails `inner_update` with the algorithm-not-given
error, and a concrete instance with an algorithm delegates `predict`. -/
theorem C9_fqe_algo_guard_witness :
    FQE.inner_update FQE.fqeNone FQE.batchFix = Except.error FQE.FQEError.algoNotGiven ∧
    FQE.predict FQE.fqeSome [0] = Except.ok (FQE.wAlgo.predict [0]) :=
  ⟨C9_fqe_algo_guard.2.2.2.1 FQE.fqeNone FQE.batchFix rfl,
   C9_fqe_algo_guard.2.2.2.2.1 FQE.fqeSome FQE.wAlgo [0] rfl⟩

namespace OnlineIter

/-- Claim C10 (amended): the Random branch is taken at step `t` iff
`t < random_steps` (strict); over the loop's step range `1..n_steps`
exactly `min (max 0 (random_steps - 1)) n_steps` steps select a random
action (so `max 0 (random_steps - 1)` whenever `random_steps ≤ n_steps + 1`);
with `random_steps ≤ 1` no step is ever random; the step with
`total_step = random_steps` (when positive) already uses Explore or
Exploit; and each loop iteration records exactly the selection mode
`selMode` dictates, the Random branch consuming `env.action_space.sample`
and rescaling it while Exploit unscales `sample_action`'s output. -/
theorem C10_random_phase (cfg : TrainCfg) (env : EnvModel) (algo : AlgoModel)
    (explorer : Option ExplorerModel) :
    (∀ (t : Nat) (fed : FedObs) (s : TrainState),
       (selMode cfg explorer t = SelMode.random →
          selectAction cfg env algo explorer t fed s =
            (scale1 env.low env.high (env.sample s.sampleCalls),
              some (env.sample s.sampleCalls), s.sampleCalls + 1)) ∧
       (selMode cfg explorer t = SelMode.explore →
          ∃ ex, explorer = some ex ∧
            selectAction cfg env algo explorer t fed s =
              (ex fed t, s.unscaled_action, s.sampleCalls)) ∧
       (selMode cfg explorer t = SelMode.exploit →
          selectAction cfg env algo explorer t fed s =
            (algo.sample_action fed,
              some (unscale1 env.low env.high (algo.sample_action fed)), s.sampleCalls))) ∧
    (∀ t : Nat, selMode cfg explorer t = SelMode.random ↔ t < cfg.random_steps) ∧
    (((List.range' 1 cfg.n_steps).filter
        (fun t => selMode cfg explorer t == SelMode.random)).length =
      min (cfg.random_steps - 1) cfg.n_steps) ∧
    (cfg.random_steps ≤ 1 →
       ∀ t ∈ List.range' 1 cfg.n_steps, selMode cfg explorer t ≠ SelMode.random) ∧
    (1 ≤ cfg.random_steps →
       selMode cfg explorer cfg.random_steps ≠ SelMode.random ∧
       (explorer = none → selMode cfg explorer cfg.random_steps = SelMode.exploit) ∧
       (∀ ex, explorer = some ex →
          selMode cfg explorer cfg.random_steps = SelMode.explore)) ∧
    (∀ (t : Nat) (s : TrainState),
       (stateOf (runStep cfg env algo explorer t s)).modes =
         s.modes ++ [selMode cfg explorer t]) := by
  have hmode : ∀ t : Nat, selMode cfg explorer t = SelMode.random ↔ t < cfg.random_steps := by
    intro t
    unfold selMode
    by_cases h : t < cfg.random_steps
    · simp [h]
    · cases explorer <;> simp [h]
  refine ⟨?_, hmode, ?_, ?_, ?_, ?_⟩
  · intro t fed s
    refine ⟨?_, ?_, ?_⟩
    · intro hm
      have h : t < cfg.random_steps := (hmode t).mp hm
      unfold selectAction
      rw [if_pos h]
    · intro hm
      unfold selMode at hm
      by_cases h : t < cfg.random_steps
      · rw [if_pos h] at hm
        exact absurd hm (by simp)
      · rw [if_neg h] at hm
        cases hex : explorer with
        | none => rw [hex] at hm; exact absurd hm (by simp)
        | some ex =>
          refine ⟨ex, rfl, ?_⟩
          unfold selectAction
          rw [if_neg h]
    · intro hm
      unfold selMode at hm
      by_cases h : t < cfg.random_steps
      · rw [if_pos h] at hm
        exact absurd hm (by simp)
      · rw [if_neg h] at hm
        cases hex : explorer with
        | some ex => rw [hex] at hm; exact absurd hm (by simp)
        | none =>
          unfold selectAction
          rw [if_neg h]
  · have hcongr : ∀ t ∈ List.range' 1 cfg.n_steps,
        (selMode cfg explorer t == SelMode.random) = decide (t < cfg.random_steps) := by
      intro t _
      by_cases h : t < cfg.random_steps
      · rw [decide_eq_true h]
        have := (hmode t).mpr h
        simp [this]
      · rw [decide_eq_false h]
        have : selMode cfg explorer t ≠ SelMode.random := fun hc => h ((hmode t).mp hc)
        simp [this]
    rw [List.filter_congr hcongr]
    exact length_filter_range'_lt cfg.random_steps cfg.n_steps
  · intro h1 t ht hc
    have := (hmode t).mp hc
    have ht1 : 1 ≤ t := by
      obtain ⟨i, hi, rfl⟩ := List.mem_range'.mp ht
      omega
    omega
  · intro h1
    have hnot : ¬(cfg.random_steps < cfg.random_steps) := lt_irrefl _
    refine ⟨fun hc => hnot ((hmode _).mp hc), ?_, ?_⟩
    · intro hex
      unfold selMode
      rw [if_neg hnot, hex]
    · intro ex hex
      unfold selMode
      rw [if_neg hnot, hex]
  · intro t s
    obtain hcase := runStep_cases cfg env algo explorer t s
    rcases hcase with ⟨e, he, _, _, _, hmodes⟩ |
        ⟨s2, action, no, r, term, trunc, heq, _, _, _, _, _, _, _, hmodes⟩
    · rw [he]
      exact hmodes
    · rw [heq]
      obtain ⟨_, _, _, _, _, hm, _, _⟩ :=
        trainAfterStep_state cfg env algo t action no r term trunc s2
      rw [hm, hmodes]

end OnlineIter

namespace OnlineIter

/-- Counterexample to C10 as stated: with `random_steps = 3` and
`n_steps = 1` the concrete run takes exactly one random step, not
`max 0 (random_steps - 1) = 2`. -/
theorem C10_random_count_counterexample :
    (modesOf (train_single_env cfgRand3 envOk algoBig none [])).count SelMode.random = 1 ∧
    max 0 (3 - 1) ≠ 1 :=
  ⟨rfl, by decide⟩

/-- Witness for C10: on a concrete configuration with `random_steps = 2`,
step 2 already exploits, and the filtered count matches the amended
formula. -/
theorem C10_random_phase_witness :
    selMode cfgStale none 2 = SelMode.exploit ∧
    ((List.range' 1 cfgStale.n_steps).filter
        (fun t => selMode cfgStale none t == SelMode.random)).length =
      min (cfgStale.random_steps - 1) cfgStale.n_steps :=
  have h := C10_random_phase cfgStale envOk algoBig none
  ⟨(h.2.2.2.2.1 (by decide)).2.1 rfl, h.2.2.1⟩

end OnlineIter
